import Mathlib

/-!
Shallow embedding of the profile-likelihood optimization engines of the
gaussian_proc repository (the modules `_profile_likelihood.py` and
`_double_profile_likelihood.py` of `gaussian_proc/_likelihood/`), together
with theorems settling the frozen claims about them.

The external covariance operator (`mixed_cor` or `cov`), the bracketing and
root-finding utilities, and the scipy minimizer are collaborators outside the
embedded modules; they are represented by oracle structures whose fields stand
for their query results. Machine floats are modelled by real numbers, with the
special values `-inf` (of the `log_eta` slot) and `+inf` (of the returned
`eta`) given their own constructors. The mutable distance-scale state of the
operator is threaded explicitly as an `Option (List ℝ)` value, `none` standing
for an unset scale.
-/

namespace GaussianProc

open Matrix Real

/-- Python runtime errors that the embedded code can raise. -/
inductive PyErr where
  | nameError
  | unboundLocal
  | indexError
  | valueError

/-- Value of the `log_eta` slot of a hyperparameter vector: a float that may
be `-inf` (tested by `numpy.isneginf` in the source). -/
inductive LogEta where
  | neginf
  | val (x : ℝ)

/-- The `hyperparam` argument of the Single engine: a numpy scalar, or a
nonempty 1-d array `[log_eta, distance_scale[0], ...]`. -/
inductive Hyperparam where
  | scalar (x : LogEta)
  | array (x : LogEta) (rest : List ℝ)

/-- An `eta` value handed to `find_optimal_sigma_sigma0`: a float that may be
`numpy.inf` (as produced by the degenerate branch of
`find_likelihood_der1_zeros`). -/
inductive Eta where
  | inf
  | fin (x : ℝ)

noncomputable instance : DecidableEq Eta := Classical.decEq Eta

/-- Conversion of `log_eta` to `eta` as in the source: `eta = 0.0` when
`log_eta` is `-inf`, otherwise `eta = 10.0**log_eta`. -/
noncomputable def decodeEta : LogEta → ℝ
  | .neginf => 0
  | .val x => (10 : ℝ) ^ x

/-- First entry of a hyperparameter argument (`hyperparam` itself when it is a
scalar, `hyperparam[0]` when it is an array). -/
def hyperparamLogEta : Hyperparam → LogEta
  | .scalar x => x
  | .array x _ => x

/-- Distance-scale state update performed at the top of `likelihood` and of
the eta-derivative routines: when `hyperparam` is an array of size above one,
the operator state is overwritten with `abs(hyperparam[1:])` via
`set_distance_scale`; otherwise the state is left unchanged. -/
noncomputable def updateScale (hyperparam : Hyperparam) (ds : Option (List ℝ)) :
    Option (List ℝ) :=
  match hyperparam with
  | .scalar _ => ds
  | .array _ [] => ds
  | .array _ (r :: rs) => some ((r :: rs).map (fun t => |t|))

/-- Oracle for the external `mixed_cor` covariance operator (spec section 6).
Each query is a pure function of the current distance-scale state and of
`eta`. The `solve` method of the source accepts a vector or a matrix right
hand side; the two shapes are separate fields here. `traceinv` takes the
`exponent` argument (1 by default in the source). -/
structure MixedCorOps (n m : ℕ) where
  solveVec : Option (List ℝ) → ℝ → (Fin n → ℝ) → Fin n → ℝ
  solveMat : Option (List ℝ) → ℝ → Matrix (Fin n) (Fin m) ℝ → Matrix (Fin n) (Fin m) ℝ
  logdet : Option (List ℝ) → ℝ → ℝ
  traceinv : Option (List ℝ) → ℝ → ℕ → ℝ

/-- Oracle for the external `cov` covariance object used by the
distance-scale derivative routines: solves and derivative-matrix access are
indexed by `sigma`, `sigma0` and a list of derivative indices; `mixed` is its
`mixed_cor` sub-object. -/
structure CovOps (n m : ℕ) where
  mixed : MixedCorOps n m
  solveVec : Option (List ℝ) → ℝ → ℝ → (Fin n → ℝ) → Fin n → ℝ
  solveMat : Option (List ℝ) → ℝ → ℝ → Matrix (Fin n) (Fin m) ℝ → Matrix (Fin n) (Fin m) ℝ
  getMatrix : Option (List ℝ) → ℝ → ℝ → List ℕ → Matrix (Fin n) (Fin n) ℝ
  dotVec : Option (List ℝ) → ℝ → ℝ → (Fin n → ℝ) → List ℕ → Fin n → ℝ
  dotMat : Option (List ℝ) → ℝ → ℝ → Matrix (Fin n) (Fin m) ℝ → List ℕ → Matrix (Fin n) (Fin m) ℝ

variable {n m : ℕ}

/-- Embedding of `ProfileLikelihood.find_optimal_sigma0`: the ordinary least
squares residual estimator `sqrt(z.T (z - X (X.T X)^{-1} X.T z) / (n - m))`,
used when `eta` is very large. -/
noncomputable def find_optimal_sigma0 (z : Fin n → ℝ) (X : Matrix (Fin n) (Fin m) ℝ) : ℝ :=
  let B := Xᵀ * X
  let Binv := B⁻¹
  let Xtz := Xᵀ *ᵥ z
  let v := X *ᵥ (Binv *ᵥ Xtz)
  let sigma02 := (z ⬝ᵥ (z - v)) / ((n : ℝ) - (m : ℝ))
  Real.sqrt sigma02

/-- Embedding of `ProfileLikelihood.find_optimal_sigma`: the generalized least
squares estimator of `sigma` for a finite `eta`, computed through the operator
solves. -/
noncomputable def find_optimal_sigma (z : Fin n → ℝ) (X : Matrix (Fin n) (Fin m) ℝ)
    (ops : MixedCorOps n m) (ds : Option (List ℝ)) (eta : ℝ) : ℝ :=
  let Y := ops.solveMat ds eta X
  let w := ops.solveVec ds eta z
  let B := Xᵀ * Y
  let Binv := B⁻¹
  let Ytz := Yᵀ *ᵥ z
  let v := Y *ᵥ (Binv *ᵥ Ytz)
  let sigma2 := (z ⬝ᵥ (w - v)) / ((n : ℝ) - (m : ℝ))
  Real.sqrt sigma2

/-- Test `numpy.abs(eta) > c` for a possibly infinite `eta`. -/
def etaAbsGt (eta : Eta) (c : ℝ) : Prop :=
  match eta with
  | .inf => True
  | .fin x => c < |x|

noncomputable instance (eta : Eta) (c : ℝ) : Decidable (etaAbsGt eta c) :=
  match eta with
  | .inf => .isTrue True.intro
  | .fin x => inferInstanceAs (Decidable (c < |x|))

/-- Embedding of `ProfileLikelihood.find_optimal_sigma_sigma0`. Note the
strict comparison `numpy.abs(eta) > max_eta` of the source (the `likelihood`
function uses `>=` instead). The second `match` arm for an infinite `eta` is
unreachable because `etaAbsGt Eta.inf` always holds. -/
noncomputable def find_optimal_sigma_sigma0 (z : Fin n → ℝ) (X : Matrix (Fin n) (Fin m) ℝ)
    (ops : MixedCorOps n m) (ds : Option (List ℝ)) (eta : Eta) : ℝ × ℝ :=
  if etaAbsGt eta (1e16) then
    let sigma0 := find_optimal_sigma0 z X
    let sigma : ℝ :=
      match eta with
      | .inf => 0
      | .fin x => sigma0 / Real.sqrt x
    (sigma, sigma0)
  else
    match eta with
    | .inf => (0, 0)
    | .fin x =>
      let sigma := find_optimal_sigma z X ops ds x
      let sigma0 : ℝ := if |x| < 1e-16 then 0 else Real.sqrt x * sigma
      (sigma, sigma0)

/-- Embedding of the large-eta branch of `ProfileLikelihood.likelihood` (the
asymptotic closed form built from the ordinary least squares residuals, lines
86 to 97 of the source). -/
noncomputable def likelihoodAsymptotic (z : Fin n → ℝ) (X : Matrix (Fin n) (Fin m) ℝ) : ℝ :=
  let B := Xᵀ * X
  let Binv := B⁻¹
  let logdet_Binv := Real.log Binv.det
  let sigma0 := find_optimal_sigma0 z X
  (-0.5 * ((n : ℝ) - (m : ℝ)) * Real.log (2 * Real.pi)
    - ((n : ℝ) - (m : ℝ)) * Real.log sigma0 - 0.5 * logdet_Binv
    - 0.5 * ((n : ℝ) - (m : ℝ)))

/-- Embedding of `ProfileLikelihood.likelihood`. The returned pair is the
function value together with the distance-scale state of the operator after
the call (the call mutates the state through `set_distance_scale` when
`hyperparam` has size above one). The large-eta branch is taken when
`numpy.abs(eta) >= 1e16`. -/
noncomputable def likelihood (z : Fin n → ℝ) (X : Matrix (Fin n) (Fin m) ℝ)
    (ops : MixedCorOps n m) (ds : Option (List ℝ)) (sign_switch : Bool)
    (hyperparam : Hyperparam) : ℝ × Option (List ℝ) :=
  let ds1 := updateScale hyperparam ds
  let eta := decodeEta (hyperparamLogEta hyperparam)
  let lp :=
    if (1e16 : ℝ) ≤ |eta| then
      likelihoodAsymptotic z X
    else
      let sigma := find_optimal_sigma z X ops ds1 eta
      let logdet_Kn := ops.logdet ds1 eta
      let Y := ops.solveMat ds1 eta X
      let XtKninvX := Xᵀ * Y
      let logdet_XtKninvX := Real.log XtKninvX.det
      (-0.5 * ((n : ℝ) - (m : ℝ)) * Real.log (2 * Real.pi)
        - ((n : ℝ) - (m : ℝ)) * Real.log sigma - 0.5 * logdet_Kn
        - 0.5 * logdet_XtKninvX - 0.5 * ((n : ℝ) - (m : ℝ)))
  (if sign_switch then -lp else lp, ds1)

/-- Embedding of `ProfileLikelihood.likelihood_der1_eta`. The conversion
`dlp_deta * eta * log(10)` to the `log_eta` variable that appears at lines
179 to 181 of the source is commented out there, so the returned value is the
derivative with respect to `eta` itself. The source returns a scalar or a
length-one array according to the shape of `hyperparam`; both carry the same
single value, returned here as a real number. -/
noncomputable def likelihood_der1_eta (z : Fin n → ℝ) (X : Matrix (Fin n) (Fin m) ℝ)
    (ops : MixedCorOps n m) (ds : Option (List ℝ)) (hyperparam : Hyperparam) : ℝ :=
  let eta := decodeEta (hyperparamLogEta hyperparam)
  let ds1 := updateScale hyperparam ds
  let Y := ops.solveMat ds1 eta X
  let w := ops.solveVec ds1 eta z
  let B := Xᵀ * Y
  let Binv := B⁻¹
  let Ytz := Yᵀ *ᵥ z
  let Binv_Ytz := Binv *ᵥ Ytz
  let Y_Binv_Ytz := Y *ᵥ Binv_Ytz
  let Mz := w - Y_Binv_Ytz
  let trace_Kninv := ops.traceinv ds1 eta 1
  let YtY := Yᵀ * Y
  let trace_BinvYtY := (Binv * YtY).trace
  let trace_M := trace_Kninv - trace_BinvYtY
  let zM2z := Mz ⬝ᵥ Mz
  let zMz := z ⬝ᵥ Mz
  let sigma2 := zMz / ((n : ℝ) - (m : ℝ))
  (-0.5 * (trace_M - zM2z / sigma2))

/-- Embedding of `ProfileLikelihood.likelihood_der2_eta` (the full second
derivative formula of lines 273 and 274, not the stationary-point variants
kept in comments in the source). -/
noncomputable def likelihood_der2_eta (z : Fin n → ℝ) (X : Matrix (Fin n) (Fin m) ℝ)
    (ops : MixedCorOps n m) (ds : Option (List ℝ)) (hyperparam : Hyperparam) : ℝ :=
  let eta := decodeEta (hyperparamLogEta hyperparam)
  let ds1 := updateScale hyperparam ds
  let Y := ops.solveMat ds1 eta X
  let V := ops.solveMat ds1 eta Y
  let w := ops.solveVec ds1 eta z
  let B := Xᵀ * Y
  let Binv := B⁻¹
  let Ytz := Yᵀ *ᵥ z
  let Binv_Ytz := Binv *ᵥ Ytz
  let Y_Binv_Ytz := Y *ᵥ Binv_Ytz
  let Mz := w - Y_Binv_Ytz
  let YtY := Yᵀ * Y
  let A := Binv * YtY
  let trace_Kn2inv := ops.traceinv ds1 eta 2
  let YtV := Yᵀ * V
  let C := Binv * YtV
  let trace_C := C.trace
  let AA := A * A
  let trace_AA := AA.trace
  let trace_M2 := trace_Kn2inv - 2 * trace_C + trace_AA
  let YtMz := Yᵀ *ᵥ Mz
  let Binv_YtMz := Binv *ᵥ YtMz
  let Y_Binv_YtMz := Y *ᵥ Binv_YtMz
  let v := ops.solveVec ds1 eta Mz
  let MMz := v - Y_Binv_YtMz
  let zMz := z ⬝ᵥ Mz
  let zM2z := Mz ⬝ᵥ Mz
  let zM3z := Mz ⬝ᵥ MMz
  let sigma2 := zMz / ((n : ℝ) - (m : ℝ))
  (0.5 * (trace_M2 - 2 * zM3z / sigma2 + zM2z ^ 2 / (((n : ℝ) - (m : ℝ)) * sigma2 ^ 2)))

/-- Modelled from the spec: the helper `M_dot` imported from the module
`_likelihood_utilities`, which is not part of the sources at hand. Per spec
section 4.2 the projector `M = Sinv - Sinv X (Xt Sinv X)^{-1} Xt Sinv` is
never materialized and is applied through solves, so with `Y = Sinv X` and
`Binv = (Xt Y)^{-1}` the product `M r` is `cov.solve(r) - Y (Binv (Yt r))`. -/
noncomputable def M_dot (cov : CovOps n m) (ds : Option (List ℝ))
    (Binv : Matrix (Fin m) (Fin m) ℝ) (Y : Matrix (Fin n) (Fin m) ℝ)
    (sigma sigma0 : ℝ) (r : Fin n → ℝ) : Fin n → ℝ :=
  cov.solveVec ds sigma sigma0 r - Y *ᵥ (Binv *ᵥ (Yᵀ *ᵥ r))

/-- Write of one entry together with its symmetric companion, as performed by
the inner loop of `likelihood_der2_distance_scale`: the source assigns
`der2[p, q] = v` and then, when `p` and `q` differ, `der2[q, p] = der2[p, q]`.
Matrices of dynamic shape are represented as plain functions on indices. -/
def symWrite (acc : ℕ → ℕ → ℝ) (p q : ℕ) (v : ℝ) : ℕ → ℕ → ℝ :=
  fun i j => if (i = p ∧ j = q) ∨ (p ≠ q ∧ i = q ∧ j = p) then v else acc i j

/-- Embedding of `ProfileLikelihood.likelihood_der2_distance_scale`. The
`hyperparam` array is passed as its first entry `log_eta` and the remaining
entries `rest`; a scalar argument would raise a TypeError in the source at
`hyperparam[1:]`, so only the array form is embedded. The trace calls
`imate.trace(..., method=exact)` of the source are the exact matrix trace.
The source shortcuts recomputation when the two loop indices agree
(`SqMz = SpMz` and so on); those shortcuts return the same values as the
general expressions used here. -/
noncomputable def likelihood_der2_distance_scale (z : Fin n → ℝ)
    (X : Matrix (Fin n) (Fin m) ℝ) (cov : CovOps n m) (ds : Option (List ℝ))
    (log_eta : LogEta) (rest : List ℝ) : ℕ → ℕ → ℝ :=
  let eta := decodeEta log_eta
  let distance_scale := rest.map (fun t => |t|)
  let ds1 : Option (List ℝ) := some distance_scale
  let s := find_optimal_sigma_sigma0 z X cov.mixed ds1 (.fin eta)
  let sigma := s.1
  let sigma0 := s.2
  let Y := cov.solveMat ds1 sigma sigma0 X
  let B := Xᵀ * Y
  let Binv := B⁻¹
  let Mz := M_dot cov ds1 Binv Y sigma sigma0 z
  let S := cov.getMatrix ds1 sigma sigma0 []
  let Sinv := S⁻¹
  let val := fun (p q : ℕ) =>
    let SpMz := cov.dotVec ds1 sigma sigma0 Mz [p]
    let MSpMz := M_dot cov ds1 Binv Y sigma sigma0 SpMz
    let SqMz := cov.dotVec ds1 sigma sigma0 Mz [q]
    let zMSqMSpMz := SqMz ⬝ᵥ MSpMz
    let SpqMz := cov.dotVec ds1 sigma sigma0 Mz [p, q]
    let zMSpqMz := Mz ⬝ᵥ SpqMz
    let Spq := cov.getMatrix ds1 sigma sigma0 [p, q]
    let SpqSinv := Spq * Sinv
    let trace_SpqSinv := SpqSinv.trace
    let SpqY := cov.dotMat ds1 sigma sigma0 Y [p, q]
    let YtSpqY := Yᵀ * SpqY
    let BinvYtSpqY := Binv * YtSpqY
    let trace_BinvYtSpqY := BinvYtSpqY.trace
    let trace_SpqM := trace_SpqSinv - trace_BinvYtSpqY
    let Sp := cov.getMatrix ds1 sigma sigma0 [p]
    let SpSinv := Sp * Sinv
    let Sq := cov.getMatrix ds1 sigma sigma0 [q]
    let SqSinv := Sq * Sinv
    let SpSinvSqSinv := SpSinv * SqSinv
    let trace_SpMSqM_1 := SpSinvSqSinv.trace
    let SpY := Sp * Y
    let SqY := Sq * Y
    let SinvSqY := cov.solveMat ds1 sigma sigma0 SqY
    let YtSpSinvSqY := SpYᵀ * SinvSqY
    let C21 := Binv * YtSpSinvSqY
    let C22 := Binv * YtSpSinvSqYᵀ
    let trace_SpMSqM_21 := C21.trace
    let trace_SpMSqM_22 := C22.trace
    let YtSpY := Yᵀ * SpY
    let YtSqY := Yᵀ * SqY
    let Dp := Binv * YtSpY
    let Dq := Binv * YtSqY
    let D := Dp * Dq
    let trace_SpMSqM_3 := D.trace
    let trace_SpMSqM := trace_SpMSqM_1 - trace_SpMSqM_21 - trace_SpMSqM_22 + trace_SpMSqM_3
    let local_der2 := -0.5 * trace_SpqM + 0.5 * trace_SpMSqM - zMSqMSpMz + 0.5 * zMSpqMz
    let MSqMz := M_dot cov ds1 Binv Y sigma sigma0 SqMz
    let dp_log_sigma2 := -(z ⬝ᵥ MSpMz) / ((n : ℝ) - (m : ℝ))
    let dq_log_sigma2 := -(z ⬝ᵥ MSqMz) / ((n : ℝ) - (m : ℝ))
    local_der2 + 0.5 * ((n : ℝ) - (m : ℝ)) * dp_log_sigma2 * dq_log_sigma2
  (List.range rest.length).foldl
    (fun acc p =>
      (List.range rest.length).foldl (fun acc2 q => symWrite acc2 p q (val p q)) acc)
    (fun _ _ => 0)

/-- Loop of `likelihood_der2_mixed` writing row `p` of a numpy array with
`numRows` rows, for `p` running over the given index list: the assignment
`der2_mixed[p] = v` broadcasts the scalar over row `p` when `p` is in range
and raises IndexError otherwise. -/
def rowWriteLoop (numRows : ℕ) (val : ℕ → ℝ) :
    List ℕ → (ℕ → ℕ → ℝ) → Except PyErr (ℕ → ℕ → ℝ)
  | [], acc => .ok acc
  | p :: ps, acc =>
      if p < numRows then
        rowWriteLoop numRows val ps (fun i j => if i = p then val p else acc i j)
      else .error .indexError

/-- Embedding of `ProfileLikelihood.likelihood_der2_mixed`. The output array
is allocated with shape `(1, distance_scale.size)` at lines 522 to 524 of the
source, yet the loop writes `der2_mixed[p]` (row `p`) for every
`p < distance_scale.size`; the writes are modelled by `rowWriteLoop` with one
row. As for `likelihood_der2_distance_scale`, the array form of `hyperparam`
is passed as head plus tail. -/
noncomputable def likelihood_der2_mixed (z : Fin n → ℝ)
    (X : Matrix (Fin n) (Fin m) ℝ) (cov : CovOps n m) (ds : Option (List ℝ))
    (log_eta : LogEta) (rest : List ℝ) : Except PyErr (ℕ → ℕ → ℝ) :=
  let eta := decodeEta log_eta
  let distance_scale := rest.map (fun t => |t|)
  let ds1 : Option (List ℝ) := some distance_scale
  let s := find_optimal_sigma_sigma0 z X cov.mixed ds1 (.fin eta)
  let sigma := s.1
  let sigma0 := s.2
  let Y := cov.solveMat ds1 sigma sigma0 X
  let YtY := Yᵀ * Y
  let V := cov.solveMat ds1 sigma sigma0 Y
  let B := Xᵀ * Y
  let Binv := B⁻¹
  let Mz := M_dot cov ds1 Binv Y sigma sigma0 z
  let MMz := M_dot cov ds1 Binv Y sigma sigma0 Mz
  let S := cov.getMatrix ds1 sigma sigma0 []
  let Sinv := S⁻¹
  let Sinv2 := Sinv * Sinv
  let val := fun (p : ℕ) =>
    let SpMz := cov.dotVec ds1 sigma sigma0 Mz [p]
    let zMSpMMz := SpMz ⬝ᵥ MMz
    let Sp := cov.getMatrix ds1 sigma sigma0 [p]
    let SpSinv2 := Sp * Sinv2
    let trace_SpSinv2 := SpSinv2.trace
    let SpY := cov.dotMat ds1 sigma sigma0 Y [p]
    let YtSpY := Yᵀ * SpY
    let VtSpY := Vᵀ * SpY
    let C1 := Binv * VtSpY
    let C2 := Binv * VtSpYᵀ
    let D1 := Binv * YtSpY
    let D2 := Binv * YtY
    let D := D1 * D2
    let trace_MSpM := trace_SpSinv2 - C1.trace - C2.trace + D.trace
    sigma ^ 2 * (0.5 * trace_MSpM - zMSpMMz)
  rowWriteLoop 1 val (List.range rest.length) (fun _ _ => 0)

/-- Embedding of `ProfileLikelihood.likelihood_hessian`. The result is the
block matrix of the eta, mixed and distance-scale second derivatives
(represented as a function on indices, the 1x1 case as a constant function);
an IndexError raised by `likelihood_der2_mixed` propagates. -/
noncomputable def likelihood_hessian (z : Fin n → ℝ)
    (X : Matrix (Fin n) (Fin m) ℝ) (cov : CovOps n m) (ds : Option (List ℝ))
    (sign_switch : Bool) (hyperparam : Hyperparam) : Except PyErr (ℕ → ℕ → ℝ) :=
  let der2_eta := likelihood_der2_eta z X cov.mixed ds hyperparam
  match hyperparam with
  | .scalar _ => .ok (fun _ _ => if sign_switch then -der2_eta else der2_eta)
  | .array _ [] => .ok (fun _ _ => if sign_switch then -der2_eta else der2_eta)
  | .array x (r :: rs) =>
      let der2_ds := likelihood_der2_distance_scale z X cov ds x (r :: rs)
      match likelihood_der2_mixed z X cov ds x (r :: rs) with
      | .error e => .error e
      | .ok der2_mixed =>
          let block := fun (i j : ℕ) =>
            if i = 0 ∧ j = 0 then der2_eta
            else if i = 0 then der2_mixed 0 (j - 1)
            else if j = 0 then der2_mixed 0 (i - 1)
            else der2_ds (i - 1) (j - 1)
          .ok (fun i j => if sign_switch then -(block i j) else block i j)

/-- Modelled from the spec: outcome of `find_interval_with_sign_change` from
the module `_root_finding`, which is not part of the sources at hand. Per spec
section 4.1 it returns a flag telling whether a sign change was found, the
final bracket and the function values at its ends. The embedded
`find_likelihood_der1_zeros` takes the routine itself as an oracle argument. -/
structure BracketSearchResult where
  found : Bool
  bracket : ℝ × ℝ
  values : ℝ × ℝ

/-- Modelled from the spec: outcome of `chandrupatla_method` from the module
`_root_finding` (spec section 4.1): the refined root and the iteration
count. -/
structure ChandrupatlaResult where
  root : ℝ
  iterations : ℕ

/-- Result record of the Single engine optimization routines: the fields of
the nested `hyperparam` and `optimization` dictionaries of the source (the
wall-clock and process timing fields are environment dependent and carry no
numeric content, so they are not modelled). -/
structure LikResult where
  sigma : ℝ
  sigma0 : ℝ
  eta : Eta
  distance_scale : Option (List ℝ)
  max_likelihood : Option ℝ
  iter : ℕ

/-- Embedding of `ProfileLikelihood.find_likelihood_der1_zeros`. The two
external root-finding routines are oracle arguments. In the no-bracket branch
the source computes the quantity it calls the second derivative at eta zero
by passing the scalar `eta_zero = 0.0` as the hyperparam argument of
`likelihood_der2_eta`, which that routine decodes as `log_eta = 0`; when the
two endpoint derivative values have mixed or zero signs, the local variable
`eta` is never assigned and the check `eta == 0` raises UnboundLocalError. -/
noncomputable def find_likelihood_der1_zeros (z : Fin n → ℝ)
    (X : Matrix (Fin n) (Fin m) ℝ) (ops : MixedCorOps n m) (ds : Option (List ℝ))
    (findInterval : (ℝ → ℝ) → ℝ × ℝ → ℕ → BracketSearchResult)
    (chandru : (ℝ → ℝ) → ℝ × ℝ → ℝ × ℝ → ℝ → ℝ → ℕ → ChandrupatlaResult)
    (interval_eta : ℝ × ℝ) (tol : ℝ) (max_iterations : ℕ)
    (num_bracket_trials : ℕ) : Except PyErr LikResult :=
  let log_eta_start := Real.logb 10 interval_eta.1
  let log_eta_end := Real.logb 10 interval_eta.2
  let f := fun lg : ℝ => likelihood_der1_eta z X ops ds (.scalar (.val lg))
  let bs := findInterval f (log_eta_start, log_eta_end) num_bracket_trials
  if bs.found then
    let res := chandru f bs.bracket bs.values tol tol max_iterations
    let eta := (10 : ℝ) ^ res.root
    let s := find_optimal_sigma_sigma0 z X ops ds (.fin eta)
    .ok ⟨s.1, s.2, .fin eta, none, none, res.iterations⟩
  else
    let dlp_deta_left := bs.values.1
    let dlp_deta_right := bs.values.2
    let d2lp_deta2_zero_eta := likelihood_der2_eta z X ops ds (.scalar (.val 0))
    let etaOpt : Option Eta :=
      if 0 < dlp_deta_left ∧ 0 < dlp_deta_right then
        some (if 0 < d2lp_deta2_zero_eta then .fin 0 else .inf)
      else if dlp_deta_left < 0 ∧ dlp_deta_right < 0 then
        some (if d2lp_deta2_zero_eta < 0 then .fin 0 else .inf)
      else none
    match etaOpt with
    | none => .error .unboundLocal
    | some eta =>
        if eta = Eta.fin 0 ∨ eta = Eta.inf then
          let s := find_optimal_sigma_sigma0 z X ops ds eta
          .ok ⟨s.1, s.2, eta, none, none, 0⟩
        else .error .valueError

/-- Embedding of lines 911 to 914 of `ProfileLikelihood.maximize_likelihood`:
the data-driven eta interval handed to `find_likelihood_der1_zeros` by the
chandrupatla branch, computed from the first entry of the guess as
`[min(1e-4, 10**g * 1e-2), max(1e+3, 10**g * 1e+2)]`. -/
noncomputable def chandrupatla_interval (log_eta_guess : ℝ) : ℝ × ℝ :=
  (min (1e-4) ((10 : ℝ) ^ log_eta_guess * 1e-2),
   max (1e+3) ((10 : ℝ) ^ log_eta_guess * 1e+2))

/-- Embedding of the chandrupatla branch of
`ProfileLikelihood.maximize_likelihood`. The warnings of the source are side
effects without numeric content and are not modelled; the state update they
accompany (setting the distance scale from the tail of the guess when the
operator has none) is. After the root search the source evaluates
`likelihood` at the scalar `result[hyperparam][eta]`, that is, it passes the
found eta itself where `likelihood` expects a log-eta; an infinite eta makes
`likelihood` take its asymptotic branch, whose value ignores eta. -/
noncomputable def maximize_likelihood_chandrupatla (z : Fin n → ℝ)
    (X : Matrix (Fin n) (Fin m) ℝ) (ops : MixedCorOps n m) (ds : Option (List ℝ))
    (findInterval : (ℝ → ℝ) → ℝ × ℝ → ℕ → BracketSearchResult)
    (chandru : (ℝ → ℝ) → ℝ × ℝ → ℝ × ℝ → ℝ → ℝ → ℕ → ChandrupatlaResult)
    (hyperparam_guess : List ℝ) : Except PyErr (LikResult × Option (List ℝ)) :=
  let ds1 :=
    if 1 < hyperparam_guess.length ∧ ds = none then some hyperparam_guess.tail
    else ds
  let log_eta_guess := hyperparam_guess.headI
  let interval_eta := chandrupatla_interval log_eta_guess
  match find_likelihood_der1_zeros z X ops ds1 findInterval chandru interval_eta
      1e-6 100 3 with
  | .error e => .error e
  | .ok r =>
      let max_lp :=
        match r.eta with
        | .fin x => (likelihood z X ops ds1 false (.scalar (.val x))).1
        | .inf => likelihoodAsymptotic z X
      .ok ({ r with max_likelihood := some max_lp, distance_scale := ds1 }, ds1)

/-- Record returned by the external `scipy.optimize.minimize` call (an oracle
of the embedding): the minimizer `x` (head and tail), the objective value and
the iteration count. -/
structure OptRes where
  xhead : LogEta
  xtail : List ℝ
  resFun : ℝ
  nit : ℕ

/-- Embedding of the general (non chandrupatla) branch of
`ProfileLikelihood.maximize_likelihood`: the scipy minimizer is the oracle
`res`; the branch decodes `eta` from the first entry of `res.x`, recovers
`sigma` and `sigma0` from it and packages the result record. -/
noncomputable def maximize_likelihood_general (z : Fin n → ℝ)
    (X : Matrix (Fin n) (Fin m) ℝ) (ops : MixedCorOps n m) (ds : Option (List ℝ))
    (res : OptRes) : LikResult :=
  let eta := decodeEta res.xhead
  let s := find_optimal_sigma_sigma0 z X ops ds (.fin eta)
  let max_lp := -res.resFun
  let distance_scale :=
    match res.xtail with
    | [] => ds
    | r :: rs => some ((r :: rs).map (fun t => |t|))
  ⟨s.1, s.2, .fin eta, distance_scale, some max_lp, res.nit⟩

/-- Embedding of numpy.log as applied to the nonnegative `eta` values of the
Double engine: natural logarithm, with `-inf` at zero. -/
noncomputable def pyLog (e : ℝ) : LogEta :=
  if e = 0 then .neginf else .val (Real.log e)

/-- Embedding of `DoubleProfileLikelihood._find_optimal_eta`: sets the
distance scale, runs the Single engine maximization with the default
Nelder-Mead method (the general branch, whose scipy call is the oracle
`res`) and extracts the resulting eta. The returned eta of that branch is
always finite. -/
noncomputable def DPL_find_optimal_eta (z : Fin n → ℝ)
    (X : Matrix (Fin n) (Fin m) ℝ) (ops : MixedCorOps n m) (res : OptRes)
    (distance_scale : List ℝ) : ℝ :=
  let ds1 : Option (List ℝ) := some distance_scale
  let result := maximize_likelihood_general z X ops ds1 res
  match result.eta with
  | .fin x => x
  | .inf => 0

/-- Combined hyperparameter vector built by `DoubleProfileLikelihood` at
lines 60 to 63 of its source: `numpy.r_[log_eta, distance_scale]` where
`log_eta = numpy.log(eta)` is the natural logarithm of the eta produced by
the inner solve. -/
noncomputable def DPL_hyperparam_full (eta : ℝ) (distance_scale : List ℝ) : Hyperparam :=
  .array (pyLog eta) distance_scale

/-- Embedding of `DoubleProfileLikelihood.likelihood`: resolves eta through
the inner solve (its scipy call being the oracle `res`), builds the combined
hyperparameter vector and delegates to the Single engine likelihood. -/
noncomputable def DPL_likelihood (z : Fin n → ℝ) (X : Matrix (Fin n) (Fin m) ℝ)
    (ops : MixedCorOps n m) (res : OptRes) (sign_switch : Bool)
    (hyperparam : List ℝ) : ℝ :=
  let distance_scale := hyperparam.map (fun t => |t|)
  let ds1 : Option (List ℝ) := some distance_scale
  let eta := DPL_find_optimal_eta z X ops res distance_scale
  (likelihood z X ops ds1 sign_switch (DPL_hyperparam_full eta distance_scale)).1

/-- Lookup of the name `log_eta_guess` inside
`DoubleProfileLikelihood.likelihood_hessian`: the name is referenced at its
call to `_find_optimal_eta` (line 140 of the source) but is neither a
parameter of the function nor assigned anywhere in its body, so the Python
interpreter raises NameError when execution reaches that call. -/
def DPL_log_eta_guess_lookup : Except PyErr ℝ := .error .nameError

/-- Embedding of `DoubleProfileLikelihood.likelihood_hessian`. The body first
takes absolute values and sets the distance scale, then evaluates the
arguments of `_find_optimal_eta`, among them the unbound name
`log_eta_guess`; the remainder of the body (which passes the distance-scale
only `hyperparam` where `likelihood_der2_distance_scale` expects a full
hyperparameter array, an empty list raising IndexError at `hyperparam[0]`)
is unreachable. -/
noncomputable def DPL_likelihood_hessian (z : Fin n → ℝ)
    (X : Matrix (Fin n) (Fin m) ℝ) (cov : CovOps n m) (res : OptRes)
    (sign_switch : Bool) (hyperparam : List ℝ) : Except PyErr (ℕ → ℕ → ℝ) :=
  let distance_scale := hyperparam.map (fun t => |t|)
  let ds1 : Option (List ℝ) := some distance_scale
  match DPL_log_eta_guess_lookup with
  | .error e => .error e
  | .ok _log_eta_guess =>
      let eta := DPL_find_optimal_eta z X cov.mixed res distance_scale
      let _log_eta := pyLog eta
      match hyperparam with
      | [] => .error .indexError
      | h :: t => .ok (likelihood_der2_distance_scale z X cov ds1 (.val h) t)

/-! Concrete instantiations used to evaluate the embedded code on explicit
inputs: a two-point data set with a single regressor supported on the first
point, and operator oracles whose solves are the identity (a unit correlation
matrix). -/

/-- Observation vector of the two-point model. -/
noncomputable def zTwo : Fin 2 → ℝ := ![0, 1]

/-- Design matrix of the two-point model (one regressor, supported on the
first point). -/
noncomputable def XTwo : Matrix (Fin 2) (Fin 1) ℝ := !![1; 0]

/-- Covariance operator oracle whose solves are the identity. -/
noncomputable def opsIdent : MixedCorOps 2 1 :=
  ⟨fun _ _ r => r, fun _ _ A => A, fun _ _ => 0, fun _ _ _ => 0⟩

/-- Covariance operator oracle with identity solves whose squared inverse
trace is 10 at `eta = 1` and 0 elsewhere. -/
noncomputable def opsTrace : MixedCorOps 2 1 :=
  ⟨fun _ _ r => r, fun _ _ A => A, fun _ _ => 0,
   fun _ eta e => if eta = 1 ∧ e = 2 then 10 else 0⟩

/-- Full covariance oracle with trivial fields for the two-point model. -/
noncomputable def covTriv : CovOps 2 1 :=
  ⟨opsIdent, fun _ _ _ r => r, fun _ _ _ A => A, fun _ _ _ _ => 1,
   fun _ _ _ r _ => r, fun _ _ _ A _ => A⟩

/-- Entry of the inverse of a one-by-one real matrix. -/
theorem inv_fin_one_apply (A : Matrix (Fin 1) (Fin 1) ℝ) : A⁻¹ 0 0 = (A 0 0)⁻¹ := by
  rw [Matrix.inv_def, Matrix.adjugate_fin_one, Matrix.det_fin_one, Ring.inverse_eq_inv]
  simp

/-- For any operator with identity solves, the profiled `sigma` of the
two-point model is 1 at every `eta`. -/
theorem find_optimal_sigma_two (ops : MixedCorOps 2 1)
    (hV : ops.solveVec = fun _ _ r => r) (hM : ops.solveMat = fun _ _ A => A)
    (ds : Option (List ℝ)) (e : ℝ) :
    find_optimal_sigma zTwo XTwo ops ds e = 1 := by
  unfold find_optimal_sigma
  rw [hV, hM]
  have hYtz : (XTwoᵀ *ᵥ zTwo) = fun _ : Fin 1 => (0 : ℝ) := by
    funext j
    fin_cases j
    simp [Matrix.mulVec, Matrix.dotProduct, Fin.sum_univ_two, XTwo, zTwo]
  simp only [hYtz]
  have hv : ((XTwoᵀ * XTwo)⁻¹ *ᵥ fun _ : Fin 1 => (0 : ℝ)) = fun _ : Fin 1 => (0 : ℝ) := by
    funext j
    simp [Matrix.mulVec, Matrix.dotProduct, Fin.sum_univ_one]
  rw [hv]
  have hz : (zTwo ⬝ᵥ (zTwo - XTwo *ᵥ fun _ : Fin 1 => (0 : ℝ))) = 1 := by
    simp [Matrix.mulVec, Matrix.dotProduct, Fin.sum_univ_two, Fin.sum_univ_one, XTwo, zTwo]
  rw [hz]
  norm_num [Real.sqrt_one]

/-- OLS estimator value of the two-point model. -/
theorem find_optimal_sigma0_two : find_optimal_sigma0 zTwo XTwo = 1 := by
  unfold find_optimal_sigma0
  have hXtz : (XTwoᵀ *ᵥ zTwo) = fun _ : Fin 1 => (0 : ℝ) := by
    funext j
    fin_cases j
    simp [Matrix.mulVec, Matrix.dotProduct, Fin.sum_univ_two, XTwo, zTwo]
  simp only [hXtz]
  have hv : ((XTwoᵀ * XTwo)⁻¹ *ᵥ fun _ : Fin 1 => (0 : ℝ)) = fun _ : Fin 1 => (0 : ℝ) := by
    funext j
    simp [Matrix.mulVec, Matrix.dotProduct, Fin.sum_univ_one]
  rw [hv]
  have hz : (zTwo ⬝ᵥ (zTwo - XTwo *ᵥ fun _ : Fin 1 => (0 : ℝ))) = 1 := by
    simp [Matrix.mulVec, Matrix.dotProduct, Fin.sum_univ_two, Fin.sum_univ_one, XTwo, zTwo]
  rw [hz]
  norm_num [Real.sqrt_one]

/-- Rational powers of ten used when decoding concrete `log_eta` values. -/
theorem rpow_ten_two : (10 : ℝ) ^ (2 : ℝ) = 100 := by
  rw [show (2 : ℝ) = ((2 : ℕ) : ℝ) by norm_num, Real.rpow_natCast]
  norm_num

theorem rpow_ten_six : (10 : ℝ) ^ (6 : ℝ) = 1e+6 := by
  rw [show (6 : ℝ) = ((6 : ℕ) : ℝ) by norm_num, Real.rpow_natCast]
  norm_num

theorem rpow_ten_sixteen : (10 : ℝ) ^ (16 : ℝ) = 1e+16 := by
  rw [show (16 : ℝ) = ((16 : ℕ) : ℝ) by norm_num, Real.rpow_natCast]
  norm_num

/-- Claim C5: for every hyperparameter argument (hence for every eta of the
form `10 ** log_eta`, including `eta = 0` encoded as `log_eta = -inf`), with
fixed data and operator state, `likelihood` called with `sign_switch = True`
returns exactly the negation of `likelihood` called with
`sign_switch = False` on the same arguments. -/
theorem C5_sign_switch_negation (z : Fin n → ℝ) (X : Matrix (Fin n) (Fin m) ℝ)
    (ops : MixedCorOps n m) (ds : Option (List ℝ)) (hyperparam : Hyperparam) :
    (likelihood z X ops ds true hyperparam).1 =
      -(likelihood z X ops ds false hyperparam).1 := by
  simp [likelihood]

/-- Claim C8: `likelihood` is deterministic. A second call with identical
arguments and the operator state left by the first call returns the identical
value and state: the state update overwrites the distance scale with the same
value both times and the returned value is a pure function of the updated
state and the arguments. -/
theorem C8_likelihood_idempotent (z : Fin n → ℝ) (X : Matrix (Fin n) (Fin m) ℝ)
    (ops : MixedCorOps n m) (ds : Option (List ℝ)) (sign_switch : Bool)
    (hyperparam : Hyperparam) :
    likelihood z X ops (likelihood z X ops ds sign_switch hyperparam).2
        sign_switch hyperparam
      = likelihood z X ops ds sign_switch hyperparam := by
  cases hyperparam with
  | scalar x => rfl
  | array x rest =>
    cases rest with
    | nil => rfl
    | cons r rs => rfl

/-- Claim C6: with an infinite `eta`, `find_optimal_sigma_sigma0` returns
`sigma = 0` and `sigma0` equal to the ordinary least squares residual
estimator `sqrt(z.T (z - X (X.T X)^{-1} X.T z) / (n - m))` on `(z, X)`. The
full-column-rank hypothesis of the claim makes `X.T X` invertible; the stated
equality holds for every `X` because the embedded inverse, like the numpy
one, is total. -/
theorem C6_eta_inf_ols (z : Fin n → ℝ) (X : Matrix (Fin n) (Fin m) ℝ)
    (ops : MixedCorOps n m) (ds : Option (List ℝ)) :
    find_optimal_sigma_sigma0 z X ops ds Eta.inf
      = (0, Real.sqrt ((z ⬝ᵥ (z - X *ᵥ ((Xᵀ * X)⁻¹ *ᵥ (Xᵀ *ᵥ z)))) /
          ((n : ℝ) - (m : ℝ)))) := by
  unfold find_optimal_sigma_sigma0
  rw [if_pos (show etaAbsGt Eta.inf (1e16) from True.intro)]
  rfl

/-- Claim C10: every call of `DoubleProfileLikelihood.likelihood_hessian`
raises NameError, because its body references the name `log_eta_guess`,
which is neither a parameter nor assigned in its scope; the function never
returns a Hessian. -/
theorem C10_hessian_nameError (z : Fin n → ℝ) (X : Matrix (Fin n) (Fin m) ℝ)
    (cov : CovOps n m) (res : OptRes) (sign_switch : Bool)
    (hyperparam : List ℝ) :
    DPL_likelihood_hessian z X cov res sign_switch hyperparam
      = .error .nameError := rfl

/-- Writing rows over `List.range size` of a one-row array fails with
IndexError as soon as `size` is at least two: the second visited index is 1. -/
theorem rowWriteLoop_two_le (v : ℕ → ℝ) (size : ℕ) (h : 2 ≤ size)
    (acc : ℕ → ℕ → ℝ) :
    rowWriteLoop 1 v (List.range size) acc = .error .indexError := by
  obtain ⟨k, rfl⟩ : ∃ k, size = k + 2 := ⟨size - 2, by omega⟩
  rw [show k + 2 = (k + 1) + 1 from rfl, List.range_succ_eq_map,
    List.range_succ_eq_map]
  simp [rowWriteLoop]

/-- Claim C9: for every hyperparameter whose distance-scale part has two or
more components, `likelihood_der2_mixed` raises IndexError (the mixed
derivative array has one row but is written at every row index below the
size), and consequently `likelihood_hessian` cannot return a value for such
hyperparameters. -/
theorem C9_der2_mixed_index_error (z : Fin n → ℝ) (X : Matrix (Fin n) (Fin m) ℝ)
    (cov : CovOps n m) (ds : Option (List ℝ)) (x : LogEta) (rest : List ℝ)
    (sign_switch : Bool) (h : 2 ≤ rest.length) :
    likelihood_der2_mixed z X cov ds x rest = .error .indexError ∧
      likelihood_hessian z X cov ds sign_switch (.array x rest)
        = .error .indexError := by
  obtain ⟨r, rs, rfl⟩ : ∃ r rs, rest = r :: rs := by
    cases rest with
    | nil => simp at h
    | cons r rs => exact ⟨r, rs, rfl⟩
  have hm : likelihood_der2_mixed z X cov ds x (r :: rs) = .error .indexError := by
    unfold likelihood_der2_mixed
    exact rowWriteLoop_two_le _ _ h _
  refine ⟨hm, ?_⟩
  unfold likelihood_hessian
  simp only [hm]

/-- Witness for claim C9 at the concrete two-point model with two
distance-scale components. -/
theorem C9_der2_mixed_index_error_witness :
    likelihood_der2_mixed zTwo XTwo covTriv none (.val 0) [1, 1]
        = .error .indexError ∧
      likelihood_hessian zTwo XTwo covTriv none true (.array (.val 0) [1, 1])
        = .error .indexError :=
  C9_der2_mixed_index_error zTwo XTwo covTriv none (.val 0) [1, 1] true (by simp)

/-- Counterexample to claim C3: at the guess `log_eta_guess = 2` the upper
end of the interval computed by the chandrupatla branch of
`maximize_likelihood` is `1e4`, while the claimed expression
`max(1e3, 10 ** (2 * log_eta_guess + 2))` evaluates to `1e6`. -/
theorem C3_counterexample :
    (chandrupatla_interval 2).2 = 1e+4 ∧
      max (1e+3) ((10 : ℝ) ^ (2 * (2 : ℝ) + 2)) = 1e+6 ∧
      (1e+4 : ℝ) ≠ 1e+6 := by
  refine ⟨?_, ?_, by norm_num⟩
  · unfold chandrupatla_interval
    rw [rpow_ten_two]
    norm_num
  · rw [show (2 * (2 : ℝ) + 2) = (6 : ℝ) by norm_num, rpow_ten_six]
    norm_num

/-- Claim C3 as amended: the eta interval computed by the chandrupatla branch
of `maximize_likelihood` from the first entry `g` of the guess is
`[min(1e-4, 10 ** (g - 2)), max(1e3, 10 ** (g + 2))]` (the source multiplies
`10 ** g` by `1e-2` and `1e+2`). -/
theorem C3_amended (g : ℝ) :
    chandrupatla_interval g
      = (min (1e-4) ((10 : ℝ) ^ (g - 2)), max (1e+3) ((10 : ℝ) ^ (g + 2))) := by
  have hs : (10 : ℝ) ^ (g - 2) = (10 : ℝ) ^ g * 1e-2 := by
    rw [Real.rpow_sub (by norm_num), rpow_ten_two]
    ring
  have ha : (10 : ℝ) ^ (g + 2) = (10 : ℝ) ^ g * 1e+2 := by
    rw [Real.rpow_add (by norm_num), rpow_ten_two]
    ring
  unfold chandrupatla_interval
  rw [hs, ha]

/-- Counterexample to claim C4: at `eta = 1e16` exactly,
`find_optimal_sigma_sigma0` takes the general branch (its comparison is the
strict `abs(eta) > 1e16`), returning the generalized least squares pair
`(1, 1e8)` on the two-point model, while the asymptotic branch the claim
prescribes would return `sigma0 = find_optimal_sigma0 = 1`; the `likelihood`
function does take the asymptotic branch at the same eta. -/
theorem C4_counterexample :
    find_optimal_sigma_sigma0 zTwo XTwo opsIdent none (.fin (1e+16)) = (1, 1e+8) ∧
      find_optimal_sigma0 zTwo XTwo = 1 ∧
      (likelihood zTwo XTwo opsIdent none false (.scalar (.val 16))).1
        = likelihoodAsymptotic zTwo XTwo ∧
      (1e+8 : ℝ) ≠ find_optimal_sigma0 zTwo XTwo := by
  have hs : find_optimal_sigma zTwo XTwo opsIdent none (1e+16) = 1 :=
    find_optimal_sigma_two opsIdent rfl rfl none _
  refine ⟨?_, find_optimal_sigma0_two, ?_, ?_⟩
  · have hsq : Real.sqrt (1e+16) = 1e+8 := by
      rw [show (1e+16 : ℝ) = (1e+8) ^ 2 by norm_num, Real.sqrt_sq (by norm_num)]
    unfold find_optimal_sigma_sigma0
    rw [if_neg (show ¬ etaAbsGt (Eta.fin (1e+16)) (1e16) by
      unfold etaAbsGt
      norm_num)]
    simp only [hs, hsq]
    norm_num
  · unfold likelihood
    rw [show decodeEta (hyperparamLogEta (.scalar (.val 16))) = 1e+16 from rpow_ten_sixteen]
    simp only [Bool.false_eq_true, if_false]
    rw [if_pos (by norm_num : (1e16 : ℝ) ≤ |(1e+16 : ℝ)|)]
  · rw [find_optimal_sigma0_two]
    norm_num

/-- Claim C4 as amended: `find_optimal_sigma_sigma0` takes the asymptotic
branch for `abs(eta) > 1e16` strictly and the general branch (with
`sigma0 = 0` below `1e-16`) for `abs(eta) <= 1e16`, so at `eta = 1e16`
exactly it takes the general branch while `likelihood` (whose comparison is
non strict) takes the asymptotic one; away from that boundary the two
functions branch on the same thresholds. -/
theorem C4_amended (z : Fin n → ℝ) (X : Matrix (Fin n) (Fin m) ℝ)
    (ops : MixedCorOps n m) (ds : Option (List ℝ)) (x lx : ℝ) :
    ((1e16 : ℝ) < |x| →
      find_optimal_sigma_sigma0 z X ops ds (.fin x)
        = (find_optimal_sigma0 z X / Real.sqrt x, find_optimal_sigma0 z X)) ∧
    (|x| ≤ 1e16 →
      find_optimal_sigma_sigma0 z X ops ds (.fin x)
        = (find_optimal_sigma z X ops ds x,
            if |x| < 1e-16 then 0 else Real.sqrt x * find_optimal_sigma z X ops ds x)) ∧
    ((16 : ℝ) ≤ lx →
      (likelihood z X ops ds false (.scalar (.val lx))).1 = likelihoodAsymptotic z X) := by
  refine ⟨fun h => ?_, fun h => ?_, fun h => ?_⟩
  · unfold find_optimal_sigma_sigma0
    rw [if_pos (show etaAbsGt (Eta.fin x) (1e16) from h)]
  · unfold find_optimal_sigma_sigma0
    rw [if_neg (show ¬ etaAbsGt (Eta.fin x) (1e16) from not_lt.mpr h)]
  · have hdec : decodeEta (hyperparamLogEta (.scalar (.val lx))) = (10 : ℝ) ^ lx := rfl
    have hpos : (0 : ℝ) < (10 : ℝ) ^ lx := Real.rpow_pos_of_pos (by norm_num) lx
    have hge : (1e16 : ℝ) ≤ |(10 : ℝ) ^ lx| := by
      rw [abs_of_pos hpos, ← rpow_ten_sixteen]
      exact Real.rpow_le_rpow_left_iff (by norm_num) |>.mpr h
    unfold likelihood
    rw [hdec]
    simp only [Bool.false_eq_true, if_false]
    rw [if_pos hge]

/-- Witness for claim C4 as amended, at `eta = 1e17`, `eta = 1` and
`log_eta = 16` on the two-point model. -/
theorem C4_amended_witness :
    (find_optimal_sigma_sigma0 zTwo XTwo opsIdent none (.fin (1e+17))
        = (find_optimal_sigma0 zTwo XTwo / Real.sqrt (1e+17),
           find_optimal_sigma0 zTwo XTwo)) ∧
    (find_optimal_sigma_sigma0 zTwo XTwo opsIdent none (.fin 1)
        = (find_optimal_sigma zTwo XTwo opsIdent none 1,
            if |(1 : ℝ)| < 1e-16 then 0
            else Real.sqrt 1 * find_optimal_sigma zTwo XTwo opsIdent none 1)) ∧
    (likelihood zTwo XTwo opsIdent none false (.scalar (.val 16))).1
        = likelihoodAsymptotic zTwo XTwo :=
  ⟨(C4_amended zTwo XTwo opsIdent none (1e+17) 16).1 (by norm_num),
   (C4_amended zTwo XTwo opsIdent none 1 16).2.1 (by norm_num),
   (C4_amended zTwo XTwo opsIdent none 1 16).2.2 (by norm_num)⟩

/-- Scipy minimize oracle whose minimizer is `x = [2.0]`: an inner solve
resolving the optimal `eta` to `10 ** 2 = 100`. -/
noncomputable def res100 : OptRes := ⟨.val 2, [], 0, 0⟩

/-- Claim C1: the inner solve of the Double engine resolves `eta = 100`, and
`DoubleProfileLikelihood.likelihood` delegates to the Single engine on the
combined vector built with `numpy.log(eta)` (natural logarithm); the Single
engine decodes that first entry as `10 ** log_eta`, so the eta actually used
is `10 ** ln(100)`, which differs from 100. -/
theorem C1_log_vs_log10 :
    DPL_find_optimal_eta zTwo XTwo opsIdent res100 [1] = 100 ∧
    DPL_likelihood zTwo XTwo opsIdent res100 false [1]
      = (likelihood zTwo XTwo opsIdent (some [1]) false
          (DPL_hyperparam_full 100 [1])).1 ∧
    decodeEta (hyperparamLogEta (DPL_hyperparam_full 100 [1])) ≠ 100 := by
  have h1 : DPL_find_optimal_eta zTwo XTwo opsIdent res100 [1] = 100 := by
    unfold DPL_find_optimal_eta maximize_likelihood_general res100
    exact rpow_ten_two
  refine ⟨h1, ?_, ?_⟩
  · unfold DPL_likelihood
    have habs : ([1] : List ℝ).map (fun t => |t|) = [1] := by norm_num
    rw [habs]
    simp only [h1]
  · unfold DPL_hyperparam_full hyperparamLogEta pyLog
    rw [if_neg (by norm_num : (100 : ℝ) ≠ 0)]
    show (10 : ℝ) ^ Real.log 100 ≠ 100
    rw [Real.rpow_def_of_pos (by norm_num : (0:ℝ) < 10)]
    intro hEq
    have hlin : Real.log 10 * Real.log 100 = Real.log 100 := by
      have hlog := congrArg Real.log hEq
      rwa [Real.log_exp] at hlog
    have hl10 : (1 : ℝ) < Real.log 10 := by
      rw [Real.lt_log_iff_exp_lt (by norm_num)]
      have := Real.exp_one_lt_d9
      linarith
    have hl100 : (0 : ℝ) < Real.log 100 := Real.log_pos (by norm_num)
    nlinarith

/-- Bracketing oracle that reports no sign change, with both endpoint values
positive (equal to 1). -/
noncomputable def bracketFail : (ℝ → ℝ) → ℝ × ℝ → ℕ → BracketSearchResult :=
  fun _ _ _ => ⟨false, (0, 0), (1, 1)⟩

/-- Root refinement oracle (never consulted when no bracket is found). -/
noncomputable def chandruTriv :
    (ℝ → ℝ) → ℝ × ℝ → ℝ × ℝ → ℝ → ℝ → ℕ → ChandrupatlaResult :=
  fun _ _ _ _ _ _ => ⟨0, 0⟩

/-- For any operator with identity solves over the two-point model, the
second eta derivative collapses to half of `traceinv(eta, 2) - 2`. -/
theorem der2_ident (ops : MixedCorOps 2 1)
    (hV : ops.solveVec = fun _ _ r => r) (hM : ops.solveMat = fun _ _ A => A)
    (l : LogEta) :
    likelihood_der2_eta zTwo XTwo ops none (.scalar l)
      = 0.5 * (ops.traceinv none (decodeEta l) 2 - 2) := by
  have hB : XTwoᵀ * XTwo = 1 := by
    ext i j
    fin_cases i
    fin_cases j
    simp [Matrix.mul_apply, Fin.sum_univ_two, XTwo, Matrix.one_apply]
  have hYtz : XTwoᵀ *ᵥ zTwo = 0 := by
    funext j
    fin_cases j
    simp [Matrix.mulVec, Matrix.dotProduct, Fin.sum_univ_two, XTwo, zTwo]
  have hzz : zTwo ⬝ᵥ zTwo = 1 := by
    simp [Matrix.dotProduct, Fin.sum_univ_two, zTwo]
  unfold likelihood_der2_eta
  rw [hV, hM]
  simp only [updateScale, hyperparamLogEta, hB, hYtz, Matrix.mulVec_zero,
    inv_one, Matrix.one_mul, Matrix.mul_one, sub_zero, Matrix.trace_one,
    Fintype.card_fin, hzz]
  norm_num
  ring

/-- The code consults `likelihood_der2_eta` at the scalar hyperparam 0.0 in
the no-bracket branch; on the chosen model that value is `0.5 * (10 - 2)`. -/
theorem der2_opsTrace_val0 :
    likelihood_der2_eta zTwo XTwo opsTrace none (.scalar (.val 0)) = 4 := by
  rw [der2_ident opsTrace rfl rfl]
  rw [show decodeEta (.val 0) = 1 by
    unfold decodeEta
    exact Real.rpow_zero 10]
  unfold opsTrace
  norm_num

/-- The analytic second derivative at `eta = 0` (scalar hyperparam with
`log_eta = -inf`) on the same model is negative. -/
theorem der2_opsTrace_neginf :
    likelihood_der2_eta zTwo XTwo opsTrace none (.scalar .neginf) = -1 := by
  rw [der2_ident opsTrace rfl rfl]
  unfold opsTrace decodeEta
  norm_num

/-- Claim C7: in the no-bracket branch with both endpoint derivatives
positive, `find_likelihood_der1_zeros` returns `eta = 0` on the chosen model
because the second-derivative value it consults is positive; but that value
is `likelihood_der2_eta` at the scalar hyperparam `0.0`, which decodes to
`eta = 1` (value 4 here), while the analytic second derivative at `eta = 0`
(scalar hyperparam `-inf`) is negative, for which the claimed rule
prescribes `eta = inf`. -/
theorem C7_der2_at_wrong_eta :
    find_likelihood_der1_zeros zTwo XTwo opsTrace none bracketFail chandruTriv
        (1e-4, 1e+3) 1e-6 100 3
      = .ok ⟨1, 0, .fin 0, none, none, 0⟩ ∧
    likelihood_der2_eta zTwo XTwo opsTrace none (.scalar .neginf) < 0 ∧
    likelihood_der2_eta zTwo XTwo opsTrace none (.scalar (.val 0)) = 4 := by
  have hσ : find_optimal_sigma zTwo XTwo opsTrace none 0 = 1 :=
    find_optimal_sigma_two opsTrace rfl rfl none 0
  have hss : find_optimal_sigma_sigma0 zTwo XTwo opsTrace none (.fin 0) = (1, 0) := by
    unfold find_optimal_sigma_sigma0
    rw [if_neg (show ¬ etaAbsGt (Eta.fin 0) (1e16) by
      unfold etaAbsGt
      norm_num)]
    simp only [hσ]
    norm_num
  refine ⟨?_, by rw [der2_opsTrace_neginf]; norm_num, der2_opsTrace_val0⟩
  unfold find_likelihood_der1_zeros
  simp only [bracketFail, der2_opsTrace_val0, hss]
  norm_num
  exact ⟨by rw [hss], by rw [hss]⟩

/-! Three-point diagonal-kernel instantiation used to settle claim C2: the
correlation matrix is `diag(1, 4, 9)`, the regressor is supported on the
first point and the observations on the other two, so the concentrated
likelihood has an explicit closed form in `eta`. -/

/-- Correlation eigenvalues of the three-point diagonal model. -/
noncomputable def kThree : Fin 3 → ℝ := ![1, 4, 9]

/-- Diagonal-kernel covariance operator: with `Kn = diag(kThree) + eta I`,
solves divide componentwise by `kThree i + eta`, and the log determinant and
inverse-power traces are the matching sums. -/
noncomputable def opsDiag : MixedCorOps 3 1 where
  solveVec := fun _ eta r i => r i / (kThree i + eta)
  solveMat := fun _ eta A i j => A i j / (kThree i + eta)
  logdet := fun _ eta => ∑ i, Real.log (kThree i + eta)
  traceinv := fun _ eta e => ∑ i, ((kThree i + eta) ^ e)⁻¹

/-- Observations of the three-point model (orthogonal to the regressor). -/
noncomputable def zThree : Fin 3 → ℝ := ![0, 1, 1]

/-- Design matrix of the three-point model. -/
noncomputable def XThree : Matrix (Fin 3) (Fin 1) ℝ := !![1; 0; 0]

/-- Shorthand `1/(4+e) + 1/(9+e)` appearing in the closed forms below. -/
noncomputable def S1fun (e : ℝ) : ℝ := (4 + e)⁻¹ + (9 + e)⁻¹

/-- Shorthand `1/(4+e)^2 + 1/(9+e)^2`. -/
noncomputable def S2fun (e : ℝ) : ℝ := ((4 + e) ^ 2)⁻¹ + ((9 + e) ^ 2)⁻¹

/-- Closed form of the concentrated log likelihood of the three-point model
as a function of `eta`. -/
noncomputable def Flik (e : ℝ) : ℝ :=
  -Real.log (2 * Real.pi) - Real.log (S1fun e / 2) - 0.5 * Real.log (4 + e)
    - 0.5 * Real.log (9 + e) - 1

/-- On the three-point model, `likelihood_der1_eta` evaluates to
`S2/S1 - S1/2` at `eta = 10 ** x`. -/
theorem der1_eval (x : ℝ) :
    likelihood_der1_eta zThree XThree opsDiag none (.scalar (.val x))
      = S2fun ((10:ℝ) ^ x) / S1fun ((10:ℝ) ^ x) - S1fun ((10:ℝ) ^ x) / 2 := by
  have hp : (0:ℝ) < (10:ℝ) ^ x := Real.rpow_pos_of_pos (by norm_num) x
  have h1 : (1:ℝ) + (10:ℝ) ^ x ≠ 0 := by positivity
  have h4 : (4:ℝ) + (10:ℝ) ^ x ≠ 0 := by positivity
  have h9 : (9:ℝ) + (10:ℝ) ^ x ≠ 0 := by positivity
  have hS1 : S1fun ((10:ℝ) ^ x) ≠ 0 := by
    unfold S1fun
    positivity
  have hYtz : (opsDiag.solveMat none ((10:ℝ) ^ x) XThree)ᵀ *ᵥ zThree = 0 := by
    funext j
    fin_cases j
    simp [opsDiag, XThree, zThree, kThree, Matrix.mulVec, Matrix.dotProduct,
      Fin.sum_univ_three, Matrix.cons_val_two, Matrix.tail_cons,
      Matrix.head_cons, Matrix.vecHead, Matrix.vecTail]
  have hzw : zThree ⬝ᵥ opsDiag.solveVec none ((10:ℝ) ^ x) zThree
      = S1fun ((10:ℝ) ^ x) := by
    simp [opsDiag, zThree, kThree, Matrix.dotProduct, Fin.sum_univ_three, S1fun,
      Matrix.cons_val_two, Matrix.tail_cons, Matrix.head_cons, Matrix.vecHead,
      Matrix.vecTail, one_div]
  have hww : opsDiag.solveVec none ((10:ℝ) ^ x) zThree ⬝ᵥ
        opsDiag.solveVec none ((10:ℝ) ^ x) zThree
      = S2fun ((10:ℝ) ^ x) := by
    simp only [opsDiag, zThree, kThree, Matrix.dotProduct, Fin.sum_univ_three,
      Matrix.cons_val_zero, Matrix.cons_val_one, Matrix.cons_val_two,
      Matrix.tail_cons, Matrix.head_cons, Matrix.vecHead, Matrix.vecTail, S2fun]
    field_simp
    ring
  have htr : opsDiag.traceinv none ((10:ℝ) ^ x) 1
      = (1 + (10:ℝ) ^ x)⁻¹ + S1fun ((10:ℝ) ^ x) := by
    simp only [opsDiag, kThree, Fin.sum_univ_three, Matrix.cons_val_zero,
      Matrix.cons_val_one, Matrix.cons_val_two, Matrix.tail_cons,
      Matrix.head_cons, Matrix.vecHead, Matrix.vecTail, Function.comp,
      Fin.succ_zero_eq_one, S1fun, pow_one]
    ring
  have htrB : (((XThreeᵀ * opsDiag.solveMat none ((10:ℝ) ^ x) XThree)⁻¹ *
        ((opsDiag.solveMat none ((10:ℝ) ^ x) XThree)ᵀ *
          (opsDiag.solveMat none ((10:ℝ) ^ x) XThree))).trace)
      = (1 + (10:ℝ) ^ x)⁻¹ := by
    rw [Matrix.trace_fin_one, Matrix.mul_apply, Fin.sum_univ_one,
      inv_fin_one_apply]
    have hB : (XThreeᵀ * opsDiag.solveMat none ((10:ℝ) ^ x) XThree) 0 0
        = (1 + (10:ℝ) ^ x)⁻¹ := by
      simp [opsDiag, XThree, kThree, Matrix.mul_apply, Fin.sum_univ_three,
        Matrix.cons_val_two, Matrix.tail_cons, Matrix.head_cons, Matrix.vecHead,
        Matrix.vecTail, one_div]
    have hYtY : ((opsDiag.solveMat none ((10:ℝ) ^ x) XThree)ᵀ *
          (opsDiag.solveMat none ((10:ℝ) ^ x) XThree)) 0 0
        = ((1 + (10:ℝ) ^ x) * (1 + (10:ℝ) ^ x))⁻¹ := by
      simp only [opsDiag, XThree, kThree, Matrix.mul_apply, Fin.sum_univ_three,
        Matrix.transpose_apply, Matrix.cons_val_zero, Matrix.cons_val_one,
        Matrix.cons_val_two, Matrix.tail_cons, Matrix.head_cons, Matrix.of_apply,
        Matrix.cons_val', Matrix.empty_val', Matrix.cons_val_fin_one,
        Matrix.vecHead, Matrix.vecTail]
      field_simp
    rw [hB, hYtY, inv_inv]
    field_simp
  unfold likelihood_der1_eta
  simp only [hyperparamLogEta, updateScale, decodeEta, hYtz, Matrix.mulVec_zero,
    sub_zero, hzw, hww, htr, htrB]
  rw [show ((3:ℕ):ℝ) - ((1:ℕ):ℝ) = 2 by norm_num]
  unfold S1fun S2fun
  field_simp
  ring

/-- On the three-point model, the likelihood value at the scalar hyperparam
`log_eta = x` is the closed form `Flik (10 ** x)` whenever `10 ** x` stays
below the large-eta threshold. -/
theorem lik_eval (x : ℝ) (hx : x < 16) :
    (likelihood zThree XThree opsDiag none false (.scalar (.val x))).1
      = Flik ((10:ℝ) ^ x) := by
  have hp : (0:ℝ) < (10:ℝ) ^ x := Real.rpow_pos_of_pos (by norm_num) x
  have h1 : (1:ℝ) + (10:ℝ) ^ x ≠ 0 := by positivity
  have hS1nn : (0:ℝ) ≤ S1fun ((10:ℝ) ^ x) / 2 := by
    unfold S1fun
    positivity
  have hlt : ¬ ((1e16:ℝ) ≤ |(10:ℝ) ^ x|) := by
    rw [abs_of_pos hp, not_le, ← rpow_ten_sixteen]
    exact Real.rpow_lt_rpow_left_iff (by norm_num) |>.mpr hx
  have hYtz : (opsDiag.solveMat none ((10:ℝ) ^ x) XThree)ᵀ *ᵥ zThree = 0 := by
    funext j
    fin_cases j
    simp [opsDiag, XThree, zThree, kThree, Matrix.mulVec, Matrix.dotProduct,
      Fin.sum_univ_three, Matrix.cons_val_two, Matrix.tail_cons,
      Matrix.head_cons, Matrix.vecHead, Matrix.vecTail]
  have hzw : zThree ⬝ᵥ opsDiag.solveVec none ((10:ℝ) ^ x) zThree
      = S1fun ((10:ℝ) ^ x) := by
    simp [opsDiag, zThree, kThree, Matrix.dotProduct, Fin.sum_univ_three, S1fun,
      Matrix.cons_val_two, Matrix.tail_cons, Matrix.head_cons, Matrix.vecHead,
      Matrix.vecTail, one_div]
  have hσ : find_optimal_sigma zThree XThree opsDiag none ((10:ℝ) ^ x)
      = Real.sqrt (S1fun ((10:ℝ) ^ x) / 2) := by
    unfold find_optimal_sigma
    simp only [hYtz, Matrix.mulVec_zero, sub_zero, hzw]
    rw [show ((3:ℕ):ℝ) - ((1:ℕ):ℝ) = 2 by norm_num]
  have hld : opsDiag.logdet none ((10:ℝ) ^ x)
      = Real.log (1 + (10:ℝ) ^ x) + Real.log (4 + (10:ℝ) ^ x)
        + Real.log (9 + (10:ℝ) ^ x) := by
    simp only [opsDiag, kThree, Fin.sum_univ_three, Matrix.cons_val_zero,
      Matrix.cons_val_one, Matrix.cons_val_two, Matrix.tail_cons,
      Matrix.head_cons, Matrix.vecHead, Matrix.vecTail, Function.comp,
      Fin.succ_zero_eq_one]
  have hdet : (XThreeᵀ * opsDiag.solveMat none ((10:ℝ) ^ x) XThree).det
      = (1 + (10:ℝ) ^ x)⁻¹ := by
    rw [Matrix.det_fin_one]
    simp [opsDiag, XThree, kThree, Matrix.mul_apply, Fin.sum_univ_three,
      Matrix.cons_val_two, Matrix.tail_cons, Matrix.head_cons, Matrix.vecHead,
      Matrix.vecTail, one_div]
  unfold likelihood
  simp only [hyperparamLogEta, updateScale, decodeEta, Bool.false_eq_true,
    if_false, hσ, hld, hdet]
  rw [if_neg hlt]
  rw [Real.log_sqrt hS1nn, Real.log_inv]
  rw [show ((3:ℕ):ℝ) - ((1:ℕ):ℝ) = 2 by norm_num]
  unfold Flik
  ring

/-- Derivative of the closed-form likelihood with respect to `eta`: it is
exactly `S2/S1 - S1/2`, the value produced by `likelihood_der1_eta`. -/
theorem Flik_hasDeriv (e : ℝ) (he : 0 < e) :
    HasDerivAt Flik (S2fun e / S1fun e - S1fun e / 2) e := by
  have h4 : (4:ℝ) + e ≠ 0 := by positivity
  have h9 : (9:ℝ) + e ≠ 0 := by positivity
  have hS1pos : 0 < S1fun e := by
    unfold S1fun
    positivity
  have hS1half : S1fun e / 2 ≠ 0 := by positivity
  have hd4 : HasDerivAt (fun t : ℝ => 4 + t) 1 e := by
    simpa using (hasDerivAt_id e).const_add (4:ℝ)
  have hd9 : HasDerivAt (fun t : ℝ => 9 + t) 1 e := by
    simpa using (hasDerivAt_id e).const_add (9:ℝ)
  have hi4 : HasDerivAt (fun t : ℝ => (4 + t)⁻¹) (-1 / (4 + e) ^ 2) e := by
    simpa using hd4.inv h4
  have hi9 : HasDerivAt (fun t : ℝ => (9 + t)⁻¹) (-1 / (9 + e) ^ 2) e := by
    simpa using hd9.inv h9
  have hS1d : HasDerivAt S1fun (-1 / (4 + e) ^ 2 + -1 / (9 + e) ^ 2) e := hi4.add hi9
  have hL : HasDerivAt (fun t => Real.log (S1fun t / 2))
      (((-1 / (4 + e) ^ 2 + -1 / (9 + e) ^ 2) / 2) / (S1fun e / 2)) e :=
    (hS1d.div_const 2).log hS1half
  have hl4 : HasDerivAt (fun t : ℝ => Real.log (4 + t)) (1 / (4 + e)) e := by
    simpa using hd4.log h4
  have hl9 : HasDerivAt (fun t : ℝ => Real.log (9 + t)) (1 / (9 + e)) e := by
    simpa using hd9.log h9
  have hsum : HasDerivAt (fun t => -Real.log (2 * Real.pi) - Real.log (S1fun t / 2)
        - 0.5 * Real.log (4 + t) - 0.5 * Real.log (9 + t) - 1)
      (-(((-1 / (4 + e) ^ 2 + -1 / (9 + e) ^ 2) / 2) / (S1fun e / 2))
        - 0.5 * (1 / (4 + e)) - 0.5 * (1 / (9 + e))) e :=
    (((hL.const_sub (-Real.log (2 * Real.pi))).sub (hl4.const_mul 0.5)).sub
      (hl9.const_mul 0.5)).sub_const 1
  unfold Flik
  convert hsum using 1
  unfold S1fun S2fun
  field_simp
  ring

/-- Derivative, with respect to the variable `log_eta`, of the likelihood of
the three-point model: the closed form composed with `10 ** x`, by the chain
rule and the agreement of the embedding with the closed form near `x`. -/
theorem lik_hasDerivAt (x : ℝ) (hx : x < 16) :
    HasDerivAt
      (fun t : ℝ => (likelihood zThree XThree opsDiag none false (.scalar (.val t))).1)
      ((S2fun ((10:ℝ)^x) / S1fun ((10:ℝ)^x) - S1fun ((10:ℝ)^x) / 2)
        * ((10:ℝ)^x * Real.log 10)) x := by
  have hp : (0:ℝ) < (10:ℝ)^x := Real.rpow_pos_of_pos (by norm_num) x
  have hexp : HasDerivAt (fun t : ℝ => (10:ℝ) ^ t) ((10:ℝ)^x * Real.log 10) x :=
    (Real.hasStrictDerivAt_const_rpow (by norm_num) x).hasDerivAt
  have hcomp : HasDerivAt (fun t : ℝ => Flik ((10:ℝ) ^ t))
      ((S2fun ((10:ℝ)^x) / S1fun ((10:ℝ)^x) - S1fun ((10:ℝ)^x) / 2)
        * ((10:ℝ)^x * Real.log 10)) x :=
    (Flik_hasDeriv ((10:ℝ)^x) hp).comp x hexp
  have hev : (fun t : ℝ =>
        (likelihood zThree XThree opsDiag none false (.scalar (.val t))).1)
      =ᶠ[nhds x] (fun t : ℝ => Flik ((10:ℝ) ^ t)) :=
    Filter.eventually_of_mem (Iio_mem_nhds hx) (fun y hy => lik_eval y hy)
  exact hcomp.congr_of_eventuallyEq hev

/-- Claim C2 as amended: `likelihood_der1_eta` returns the eta-space
derivative `d lp / d eta`, not the `log_eta`-space one; equivalently, the
derivative of the likelihood with respect to `log_eta` equals the returned
value multiplied by `eta * ln(10)` (verified exactly on the three-point
instantiation, for every `log_eta` below the large-eta threshold). -/
theorem C2_amended (x : ℝ) (hx : x < 16) :
    HasDerivAt
      (fun t : ℝ => (likelihood zThree XThree opsDiag none false (.scalar (.val t))).1)
      (likelihood_der1_eta zThree XThree opsDiag none (.scalar (.val x))
        * ((10:ℝ)^x * Real.log 10)) x := by
  rw [der1_eval x]
  exact lik_hasDerivAt x hx

/-- Witness for claim C2 as amended at `log_eta = 1`, that is, `eta = 10`. -/
theorem C2_amended_witness :
    (1:ℝ) < 16 ∧
    HasDerivAt
      (fun t : ℝ => (likelihood zThree XThree opsDiag none false (.scalar (.val t))).1)
      (likelihood_der1_eta zThree XThree opsDiag none (.scalar (.val 1))
        * ((10:ℝ)^(1:ℝ) * Real.log 10)) 1 :=
  ⟨by norm_num, C2_amended 1 (by norm_num)⟩

/-- Counterexample to claim C2: at `eta = 10` (inside the moderate range),
the derivative of the likelihood with respect to `log_eta` is the returned
value of `likelihood_der1_eta` times `10 * ln(10)`, and the returned value
differs from that derivative by far more than `1e-4` relative error, so the
returned value does not match a central finite difference over `log_eta`. -/
theorem C2_counterexample :
    HasDerivAt
      (fun t : ℝ => (likelihood zThree XThree opsDiag none false (.scalar (.val t))).1)
      (likelihood_der1_eta zThree XThree opsDiag none (.scalar (.val 1))
        * ((10:ℝ)^(1:ℝ) * Real.log 10)) 1 ∧
    ¬ (|likelihood_der1_eta zThree XThree opsDiag none (.scalar (.val 1))
          - likelihood_der1_eta zThree XThree opsDiag none (.scalar (.val 1))
            * ((10:ℝ)^(1:ℝ) * Real.log 10)|
        ≤ 1e-4 * |likelihood_der1_eta zThree XThree opsDiag none (.scalar (.val 1))
            * ((10:ℝ)^(1:ℝ) * Real.log 10)|) := by
  have hR : likelihood_der1_eta zThree XThree opsDiag none (.scalar (.val 1))
      = 25 / 17556 := by
    rw [der1_eval 1, Real.rpow_one]
    unfold S1fun S2fun
    norm_num
  have hL : (2:ℝ) < Real.log 10 := by
    rw [Real.lt_log_iff_exp_lt (by norm_num)]
    have h := Real.exp_one_lt_d9
    have h2 : Real.exp 2 = Real.exp 1 * Real.exp 1 := by
      rw [← Real.exp_add]
      norm_num
    nlinarith [Real.exp_pos 1]
  constructor
  · rw [der1_eval 1]
    exact lik_hasDerivAt 1 (by norm_num)
  · rw [hR, Real.rpow_one, not_le]
    have hDpos : (0:ℝ) < 25/17556 * (10 * Real.log 10) := by nlinarith
    rw [abs_of_pos hDpos,
      abs_of_neg (by nlinarith : (25/17556 : ℝ) - 25/17556 * (10 * Real.log 10) < 0)]
    nlinarith

end GaussianProc
